import Mathlib

/-!
Verification of the SuperHero compiler (superhero_compiler.py).

This file shallowly embeds the compiler pipeline: the lexer
(SuperHeroLexer.tokenize), the resolver first pass
(SuperHeroParser.first_pass), the instruction builder
(SuperHeroParser.parse_statement / parse), and the code generator
(CodeGenerator.generate_node and the array-declaration part of
CodeGenerator.generate).  Lines of source text are lists of characters,
the token stream is a list of Token records, and fallible stages return
Except values mirroring the places where the Python code prints an error
and exits.
-/

deriving instance DecidableEq for Except

/-- Python str.isspace for the characters that can occur inside one line
(the source is split on newline before per-line processing). -/
def isspace (c : Char) : Bool :=
  c = ' ' || c = '\t' || c = '\n' || c = '\r' || c = '\x0b' || c = '\x0c'

/-- Word-continuation characters: Python isalnum, underscore, or the hash
sigil (superhero_compiler.py line 162). -/
def isWordChar (c : Char) : Bool :=
  c.isAlphanum || c = '_' || c = '#'

/-- Decimal value of a run of ASCII digits, as Python int() computes it on
an all-digit string. -/
def digitsToNat (l : List Char) : Nat :=
  l.foldl (fun a c => a * 10 + (c.toNat - 48)) 0

/-- Tail of a Python int() literal after its first digit: digits with
single underscores allowed only between digits. -/
def pyIntTail : List Char → Bool
  | [] => true
  | '_' :: rest =>
    match rest with
    | c :: rest2 => c.isDigit && pyIntTail rest2
    | [] => false
  | c :: rest => c.isDigit && pyIntTail rest

/-- Whether Python int() accepts this character run (it consists of word
characters, so no sign or whitespace can occur). -/
def pyIntOk : List Char → Bool
  | [] => false
  | c :: rest => c.isDigit && pyIntTail rest

/-- Python startswith on character lists. -/
def startsWithL : List Char → List Char → Bool
  | _, [] => true
  | [], _ :: _ => false
  | c :: s, p :: ps => c = p && startsWithL s ps

/-- Python substring containment (the in operator) on character lists. -/
def containsL : List Char → List Char → Bool
  | l, pat =>
    startsWithL l pat ||
      match l with
      | [] => false
      | _ :: t => containsL t pat

/-- Python str.split on the newline character. -/
def splitNL : List Char → List (List Char)
  | [] => [[]]
  | c :: rest =>
    if c = '\n' then [] :: splitNL rest
    else
      match splitNL rest with
      | l :: ls => (c :: l) :: ls
      | [] => [[c]]

/-- Token kinds of the SuperHero language (the TokenType enumeration). -/
inductive Tok
  | comment | ironman | batman | superman | wonderwoman | flash | spiderman
  | thor | thornum | hulk | doctorstrange | blackpanther | captainamerica
  | vision | starlord | deadpool | loki | falcon | hawkeye | thanos
  | addT | subT | identifier | string | number | operator | empty | into
  | cellRef
deriving DecidableEq, Repr

/-- A token value: the Python code stores either a string or an int. -/
inductive TokValue
  | s (v : String)
  | n (v : Nat)
deriving DecidableEq, Repr

/-- The string payload of a token value (identifiers, keywords, operators
and string literals always carry strings). -/
def TokValue.getS : TokValue → String
  | .s v => v
  | .n _ => ""

/-- The numeric payload of a token value (number and cell-reference tokens
always carry numbers). -/
def TokValue.getN : TokValue → Nat
  | .n v => v
  | .s _ => 0

/-- A token: kind, value, 1-based source line, and the indentation depth
recorded on the first token of each line (0 elsewhere, matching the
getattr default used by the resolver). -/
structure Token where
  type : Tok
  value : TokValue
  line : Nat
  indentation : Nat := 0
deriving DecidableEq, Repr

/-- Fatal lexical errors (each print + sys.exit site in tokenize). -/
inductive LexErr
  | unclosedString (line : Nat)
  | invalidCellRef (word : String) (line : Nat)
  | invalidOperator (op : String) (line : Nat)
deriving DecidableEq, Repr

/-- The keyword table of SuperHeroLexer. -/
def keywordOf : String → Option Tok
  | "ironman" => some .ironman
  | "batman" => some .batman
  | "superman" => some .superman
  | "wonderwoman" => some .wonderwoman
  | "flash" => some .flash
  | "spiderman" => some .spiderman
  | "thor" => some .thor
  | "thornum" => some .thornum
  | "hulk" => some .hulk
  | "doctorstrange" => some .doctorstrange
  | "blackpanther" => some .blackpanther
  | "captainamerica" => some .captainamerica
  | "vision" => some .vision
  | "starlord" => some .starlord
  | "deadpool" => some .deadpool
  | "loki" => some .loki
  | "falcon" => some .falcon
  | "hawkeye" => some .hawkeye
  | "thanos" => some .thanos
  | "add" => some .addT
  | "sub" => some .subT
  | "into" => some .into
  | "empty" => some .empty
  | _ => none

/-- The operator normalization table of SuperHeroLexer: bare = normalizes
to the double-equals internal form. -/
def operatorOf : String → Option String
  | ">" => some ">"
  | "<" => some "<"
  | "=" => some "=="
  | "==" => some "=="
  | "!=" => some "!="
  | ">=" => some ">="
  | "<=" => some "<="
  | _ => none

/-- The string-literal scanning loop (tokenize lines 133-148): starting
just after an opening quote, consume until an unescaped closing quote.
Returns the raw contents and the remainder of the line, or none when the
line ends first (the unterminated-string case).  A backslash with a
following character is skipped as a two-character escape and is kept
verbatim in the value. -/
def scanStr : List Char → Option (List Char × List Char)
  | [] => none
  | c :: rest =>
    if c = '"' then some ([], rest)
    else if c = '\\' then
      match rest with
      | d :: rest2 =>
        match scanStr rest2 with
        | some (v, r) => some (c :: d :: v, r)
        | none => none
      | [] => none
    else
      match scanStr rest with
      | some (v, r) => some (c :: v, r)
      | none => none

/-- The remainder after scanStr is shorter than its input (at least the
closing quote is consumed). -/
theorem scanStrLen : ∀ (s v r : List Char), scanStr s = some (v, r) → r.length < s.length
  | [], v, r, h => by simp [scanStr] at h
  | c :: rest, v, r, h => by
    unfold scanStr at h
    split at h
    · simp only [Option.some.injEq, Prod.mk.injEq] at h
      simp [← h.2]
    · split at h
      · split at h
        · split at h
          · rename_i h2
            simp only [Option.some.injEq, Prod.mk.injEq] at h
            have := scanStrLen _ _ _ h2
            simp only [← h.2, List.length_cons]
            omega
          · simp at h
        · simp at h
      · split at h
        · rename_i h2
          simp only [Option.some.injEq, Prod.mk.injEq] at h
          have := scanStrLen _ _ _ h2
          simp only [← h.2, List.length_cons]
          omega
        · simp at h
termination_by s => s.length

/-- dropWhile never lengthens a list. -/
theorem dropWhileLenLe {α : Type} (p : α → Bool) : ∀ l : List α, (l.dropWhile p).length ≤ l.length
  | [] => by simp
  | c :: rest => by
    by_cases h : p c
    · simp [List.dropWhile, h]
      have := dropWhileLenLe p rest
      omega
    · simp [List.dropWhile, h]

/-- The per-line character scanning loop of tokenize (lines 124-202),
producing this line's tokens in order or the first fatal lexical error.
Tokens are created with indentation 0; the caller decorates the first
token of the line.  In the digit and word branches the current character
c satisfies the run predicate (a word-start character is a word
character), so the maximal run starting at c is c consed onto the run
taken from the remaining characters; the scan resumes after that run.
The fuel argument only bounds the recursion depth; every step consumes at
least one character, so any fuel of at least the line length gives the
loop semantics (theorem scanLineFIrrel). -/
def scanLineF (n : Nat) : Nat → List Char → Except LexErr (List Token)
  | _, [] => .ok []
  | 0, _ :: _ => .ok []
  | fuel + 1, c :: rest =>
    if isspace c then scanLineF n fuel rest
    else if c = '"' then
      match scanStr rest with
      | some (v, r) =>
        match scanLineF n fuel r with
        | .ok ts => .ok (⟨.string, .s (String.mk v), n, 0⟩ :: ts)
        | .error e => .error e
      | none => .error (.unclosedString n)
    else if c.isDigit then
      match scanLineF n fuel (rest.dropWhile Char.isDigit) with
      | .ok ts => .ok (⟨.number, .n (digitsToNat (c :: rest.takeWhile Char.isDigit)), n, 0⟩ :: ts)
      | .error e => .error e
    else if c.isAlpha || c = '_' || c = '#' then
      let word := c :: rest.takeWhile isWordChar
      if c = '#' then
        if pyIntOk (word.drop 1) then
          match scanLineF n fuel (rest.dropWhile isWordChar) with
          | .ok ts =>
            .ok (⟨.cellRef, .n (digitsToNat ((word.drop 1).filter (fun d => !(d = '_')))), n, 0⟩ :: ts)
          | .error e => .error e
        else .error (.invalidCellRef (String.mk word) n)
      else
        match scanLineF n fuel (rest.dropWhile isWordChar) with
        | .ok ts =>
          match keywordOf (String.mk word) with
          | some k => .ok (⟨k, .s (String.mk word), n, 0⟩ :: ts)
          | none => .ok (⟨.identifier, .s (String.mk word), n, 0⟩ :: ts)
        | .error e => .error e
    else if c = '<' || c = '>' || c = '=' || c = '!' then
      let opLen : Nat := match rest with | '=' :: _ => 1 | _ => 0
      match operatorOf (String.mk (c :: rest.take opLen)) with
      | some norm =>
        match scanLineF n fuel (rest.drop opLen) with
        | .ok ts => .ok (⟨.operator, .s norm, n, 0⟩ :: ts)
        | .error e => .error e
      | none => .error (.invalidOperator (String.mk (c :: rest.take opLen)) n)
    else if c = ':' then
      match scanLineF n fuel rest with
      | .ok ts => .ok (⟨.identifier, .s ":", n, 0⟩ :: ts)
      | .error e => .error e
    else scanLineF n fuel rest

/-- The per-line scanner at its canonical fuel, one unit per character of
the line. -/
def scanLine (n : Nat) (l : List Char) : Except LexErr (List Token) :=
  scanLineF n l.length l

/-- Leading-whitespace count of a line (len minus len of lstrip). -/
def lineIndent (line : List Char) : Nat :=
  (line.takeWhile isspace).length

/-- Record the indentation level (integer-divided by 4) on the first token
of a line, as tokenize does before extending the token list. -/
def setHeadIndent (ind : Nat) : List Token → List Token
  | [] => []
  | t :: ts => { t with indentation := ind / 4 } :: ts

/-- The block-comment opening marker. -/
def openMark : List Char := "heroes*".data

/-- The block-comment closing marker. -/
def closeMark : List Char := "*heroes".data

/-- The line loop of tokenize: blank lines are skipped; inside a block
comment every line is skipped and the comment ends on the first line
containing the closing marker; a line containing the opening marker but
not the closing marker starts a block comment and is itself skipped; a
line whose stripped text starts with the line-comment marker is skipped;
any other line is scanned for tokens and its first token gets the line's
indentation. -/
def tokenizeLines (multiline : Bool) (n : Nat) : List (List Char) → Except LexErr (List Token)
  | [] => .ok []
  | line :: rest =>
    if line.all isspace then tokenizeLines multiline (n + 1) rest
    else if multiline then
      if containsL line closeMark then tokenizeLines false (n + 1) rest
      else tokenizeLines true (n + 1) rest
    else if containsL line openMark && !containsL line closeMark then
      tokenizeLines true (n + 1) rest
    else if startsWithL (line.dropWhile isspace) "hero>".data then
      tokenizeLines multiline (n + 1) rest
    else
      match scanLine n line with
      | .error e => .error e
      | .ok lts =>
        match tokenizeLines multiline (n + 1) rest with
        | .error e => .error e
        | .ok ts => .ok (setHeadIndent (lineIndent line) lts ++ ts)

/-- SuperHeroLexer.tokenize: split the source on newlines and scan each
line, numbering lines from 1. -/
def tokenize (code : List Char) : Except LexErr (List Token) :=
  tokenizeLines false 1 (splitNL code)

/-- The three lookup tables built by the resolver first pass
(SuperHeroParser instance state: labels set, flashes dict,
doctorstranges dict).  The label set is modelled as a duplicate-free
append list; the two dicts as insertion-ordered association lists with
replace-on-rewrite, matching Python dict semantics. -/
structure FPState where
  labels : List String
  flashes : List (String × List Token)
  doctorstranges : List (String × Option Nat)
deriving DecidableEq, Repr

/-- Python set.add on the label set. -/
def FPState.addLabel (st : FPState) (s : String) : FPState :=
  if s ∈ st.labels then st else { st with labels := st.labels ++ [s] }

/-- Python dict item assignment: replace the existing binding or append a
new one. -/
def upsert {α : Type} (k : String) (v : α) : List (String × α) → List (String × α)
  | [] => [(k, v)]
  | (k2, v2) :: rest => if k2 = k then (k, v) :: rest else (k2, v2) :: upsert k v rest

/-- Strip one trailing colon from a name, as first_pass and
parse_statement do for label and flash names: Python endswith of the
single colon holds exactly when the last character is a colon, and the
slice name[:-1] drops the last character. -/
def stripColon (s : String) : String :=
  if s.data.getLast? = some ':' then String.mk s.data.dropLast else s

/-- Token predicate bounding a flash body: the body extends until a
label-definition or loop-definition token whose recorded indentation is
zero (first_pass lines 261-262; tokens that are not first on their line
read indentation 0 through the getattr default). -/
def flashBoundary (tk : Token) : Bool :=
  (tk.type = Tok.falcon || tk.type = Tok.flash) && tk.indentation = 0

/-- SuperHeroParser.first_pass: a single forward scan collecting labels,
flash bodies and array declarations.  The falcon branch does i += 2
inside the branch and then falls through to the final i += 1 of the
loop body, so the
scan resumes three tokens past the keyword; the doctorstrange branch
falls through to i += 1 only.  The fuel argument only bounds the
recursion depth; every step consumes at least one token, so any fuel of
at least the token count gives the scan semantics (theorem
firstPassFIrrel). -/
def firstPassF : Nat → List Token → FPState → FPState
  | _, [], st => st
  | 0, _ :: _, st => st
  | fuel + 1, t :: rest, st =>
    if t.type = Tok.falcon then
      let st2 :=
        match rest with
        | t2 :: _ =>
          if t2.type = Tok.identifier then st.addLabel (stripColon t2.value.getS) else st
        | [] => st
      firstPassF fuel (rest.drop 2) st2
    else if t.type = Tok.flash then
      match rest with
      | t2 :: rest2 =>
        if t2.type = Tok.identifier then
          firstPassF fuel (rest2.dropWhile (fun tk => !flashBoundary tk))
            { st with
                flashes :=
                  upsert (stripColon t2.value.getS) (rest2.takeWhile (fun tk => !flashBoundary tk))
                    st.flashes }
        else firstPassF fuel (t2 :: rest2) st
      | [] => st
    else if t.type = Tok.doctorstrange then
      let st2 :=
        match rest with
        | t2 :: rest2 =>
          if t2.type = Tok.number then
            match rest2 with
            | t3 :: _ =>
              if t3.type = Tok.identifier then
                { st with
                    doctorstranges := upsert t3.value.getS (some t2.value.getN) st.doctorstranges }
              else st
            | [] => st
          else if t2.type = Tok.identifier then
            { st with doctorstranges := upsert t2.value.getS none st.doctorstranges }
          else st
        | [] => st
      firstPassF fuel rest st2
    else firstPassF fuel rest st

/-- The resolver first pass at its canonical fuel, one unit per token. -/
def firstPass (l : List Token) (st : FPState) : FPState :=
  firstPassF l.length l st

/-- Fatal parser errors (the sys.exit sites inside parse_statement). -/
inductive ParseErr
  | expectedArrayName (line : Nat)
  | expectedString (line : Nat)
deriving DecidableEq, Repr

/-- Conditional-jump operand values: the current-cell marker, the
designated zero marker, or an integer literal (the Python code stores the
strings "vision" and "empty" or an int; absence is Option.none). -/
inductive SpVal
  | vision
  | empty
  | num (n : Nat)
deriving DecidableEq, Repr

/-- Add/subtract operand values: the current-cell marker or an integer
(cell references store their integer with the is_cell flag set). -/
inductive AVal
  | vision
  | num (n : Nat)
deriving DecidableEq, Repr

/-- Instructions produced by parse_statement, one case per statement
dictionary shape. -/
inductive Stmt
  | ironman | batman | superman | wonderwoman | thor | thornum
  | hulk (arg : Option TokValue)
  | doctorstrange (name : String) (size : Option Nat)
  | blackpanther (target : Option TokValue) (content : Option String)
  | captainamerica (target : Option String)
  | starlord (text : String)
  | deadpool | loki
  | falcon (name : Option String)
  | hawkeye (target : Option String)
  | spiderman (target : Option String) (left : Option SpVal) (op : Option String)
      (right : Option SpVal)
  | addS (left : Option AVal) (right : Option AVal) (leftIsCell rightIsCell : Bool)
  | subS (left : Option AVal) (right : Option AVal) (leftIsCell rightIsCell : Bool)
  | thanos
  | flashCall (name : String)
deriving DecidableEq, Repr

/-- SuperHeroParser.parse_statement: dispatch on the current token t,
peeking into the following tokens.  Returns the statement produced (none
for skipped tokens) and how many tokens after t were consumed, or a fatal
parse error. -/
def parseStatement (flashes : List String) (t : Token) (rest : List Token) :
    Except ParseErr (Option Stmt × Nat) :=
  match t.type with
  | .ironman => .ok (some .ironman, 0)
  | .batman => .ok (some .batman, 0)
  | .superman => .ok (some .superman, 0)
  | .wonderwoman => .ok (some .wonderwoman, 0)
  | .thor => .ok (some .thor, 0)
  | .thornum => .ok (some .thornum, 0)
  | .hulk =>
    match rest.head? with
    | some t2 =>
      if t2.type = Tok.string || t2.type = Tok.number then .ok (some (.hulk (some t2.value)), 1)
      else .ok (some (.hulk none), 0)
    | none => .ok (some (.hulk none), 0)
  | .doctorstrange =>
    let sk : Option Nat × Nat :=
      match rest.head? with
      | some t2 => if t2.type = Tok.number then (some t2.value.getN, 1) else (none, 0)
      | none => (none, 0)
    match rest.get? sk.2 with
    | some t3 =>
      if t3.type = Tok.identifier then .ok (some (.doctorstrange t3.value.getS sk.1), sk.2 + 1)
      else .error (.expectedArrayName t.line)
    | none => .error (.expectedArrayName t.line)
  | .blackpanther =>
    let tk : Option TokValue × Nat :=
      match rest.head? with
      | some t2 =>
        if t2.type = Tok.into then
          match rest.get? 1 with
          | some t3 =>
            if t3.type = Tok.identifier || t3.type = Tok.number then (some t3.value, 2)
            else (none, 1)
          | none => (none, 1)
        else (none, 0)
      | none => (none, 0)
    match rest.get? tk.2 with
    | some t4 =>
      if t4.type = Tok.string then
        .ok (some (.blackpanther tk.1 (some t4.value.getS)), tk.2 + 1)
      else .ok (some (.blackpanther tk.1 none), tk.2)
    | none => .ok (some (.blackpanther tk.1 none), tk.2)
  | .captainamerica =>
    match rest.head? with
    | some t2 =>
      if t2.type = Tok.identifier then .ok (some (.captainamerica (some t2.value.getS)), 1)
      else .ok (some (.captainamerica none), 0)
    | none => .ok (some (.captainamerica none), 0)
  | .starlord =>
    match rest.head? with
    | some t2 =>
      if t2.type = Tok.string then .ok (some (.starlord t2.value.getS), 1)
      else .error (.expectedString t.line)
    | none => .error (.expectedString t.line)
  | .deadpool => .ok (some .deadpool, 0)
  | .loki => .ok (some .loki, 0)
  | .falcon =>
    match rest.head? with
    | some t2 =>
      if t2.type = Tok.identifier then .ok (some (.falcon (some (stripColon t2.value.getS))), 1)
      else .ok (some (.falcon none), 0)
    | none => .ok (some (.falcon none), 0)
  | .hawkeye =>
    match rest.head? with
    | some t2 =>
      if t2.type = Tok.identifier then .ok (some (.hawkeye (some t2.value.getS)), 1)
      else .ok (some (.hawkeye none), 0)
    | none => .ok (some (.hawkeye none), 0)
  | .spiderman =>
    let tg : Option String × Nat :=
      match rest.head? with
      | some t2 => if t2.type = Tok.identifier then (some t2.value.getS, 1) else (none, 0)
      | none => (none, 0)
    let lf : Option SpVal × Nat :=
      match rest.get? tg.2 with
      | some t2 =>
        if t2.type = Tok.vision then (some .vision, tg.2 + 1)
        else if t2.type = Tok.number then (some (.num t2.value.getN), tg.2 + 1)
        else (none, tg.2)
      | none => (none, tg.2)
    let op : Option String × Nat :=
      match rest.get? lf.2 with
      | some t2 => if t2.type = Tok.operator then (some t2.value.getS, lf.2 + 1) else (none, lf.2)
      | none => (none, lf.2)
    let rt : Option SpVal × Nat :=
      match rest.get? op.2 with
      | some t2 =>
        if t2.type = Tok.empty then (some .empty, op.2 + 1)
        else if t2.type = Tok.number then (some (.num t2.value.getN), op.2 + 1)
        else if t2.type = Tok.vision then (some .vision, op.2 + 1)
        else (none, op.2)
      | none => (none, op.2)
    .ok (some (.spiderman tg.1 lf.1 op.1 rt.1), rt.2)
  | .addT =>
    let lf : Option AVal × Bool × Nat :=
      match rest.head? with
      | some t2 =>
        if t2.type = Tok.vision then (some .vision, false, 1)
        else if t2.type = Tok.number then (some (.num t2.value.getN), false, 1)
        else if t2.type = Tok.cellRef then (some (.num t2.value.getN), true, 1)
        else (none, false, 0)
      | none => (none, false, 0)
    let rt : Option AVal × Bool × Nat :=
      match rest.get? lf.2.2 with
      | some t2 =>
        if t2.type = Tok.number then (some (.num t2.value.getN), false, lf.2.2 + 1)
        else if t2.type = Tok.vision then (some .vision, false, lf.2.2 + 1)
        else if t2.type = Tok.cellRef then (some (.num t2.value.getN), true, lf.2.2 + 1)
        else (none, false, lf.2.2)
      | none => (none, false, lf.2.2)
    .ok (some (.addS lf.1 rt.1 lf.2.1 rt.2.1), rt.2.2)
  | .subT =>
    let lf : Option AVal × Bool × Nat :=
      match rest.head? with
      | some t2 =>
        if t2.type = Tok.vision then (some .vision, false, 1)
        else if t2.type = Tok.number then (some (.num t2.value.getN), false, 1)
        else if t2.type = Tok.cellRef then (some (.num t2.value.getN), true, 1)
        else (none, false, 0)
      | none => (none, false, 0)
    let rt : Option AVal × Bool × Nat :=
      match rest.get? lf.2.2 with
      | some t2 =>
        if t2.type = Tok.number then (some (.num t2.value.getN), false, lf.2.2 + 1)
        else if t2.type = Tok.vision then (some .vision, false, lf.2.2 + 1)
        else if t2.type = Tok.cellRef then (some (.num t2.value.getN), true, lf.2.2 + 1)
        else (none, false, lf.2.2)
      | none => (none, false, lf.2.2)
    .ok (some (.subS lf.1 rt.1 lf.2.1 rt.2.1), rt.2.2)
  | .thanos => .ok (some .thanos, 0)
  | .identifier =>
    if t.value.getS ∈ flashes then .ok (some (.flashCall t.value.getS), 0)
    else .ok (none, 0)
  | _ => .ok (none, 0)

/-- The statement loop of SuperHeroParser.parse: repeatedly call
parse_statement until the tokens are exhausted, keeping the statements
that are produced.  The fuel argument only bounds the recursion depth;
every call consumes at least the dispatch token, so any fuel of at least
the token count gives the loop semantics (theorem parseLoopFIrrel). -/
def parseLoopF (flashes : List String) : Nat → List Token → Except ParseErr (List Stmt)
  | _, [] => .ok []
  | 0, _ :: _ => .ok []
  | fuel + 1, t :: rest =>
    match parseStatement flashes t rest with
    | .error e => .error e
    | .ok (st?, k) =>
      match parseLoopF flashes fuel (rest.drop k) with
      | .error e => .error e
      | .ok stmts =>
        .ok
          (match st? with
           | some s => s :: stmts
           | none => stmts)

/-- The statement loop at its canonical fuel, one unit per token. -/
def parseLoop (flashes : List String) (l : List Token) : Except ParseErr (List Stmt) :=
  parseLoopF flashes l.length l

/-- SuperHeroParser.parse: run the resolver first pass, then build the
instruction list from position 0 with the collected flash names. -/
def parse (tokens : List Token) : Except ParseErr (List Stmt × FPState) :=
  let st := firstPass tokens ⟨[], [], []⟩
  match parseLoop (st.flashes.map Prod.fst) tokens with
  | .error e => .error e
  | .ok stmts => .ok (stmts, st)

/-- Indentation string of CodeGenerator.indent: four spaces per level. -/
def ind (level : Nat) : String :=
  String.mk (List.replicate (4 * level) ' ')

/-- Python f-string rendering of an optional string: an absent value
renders as the text None. -/
def optStr : Option String → String
  | some s => s
  | none => "None"

/-- Left operand rendering of a conditional jump (generate_node line 732):
the current-cell marker becomes the cursor-indexed cell, anything else is
rendered with str, so an integer prints itself and an absent operand
prints None. -/
def spLeft : Option SpVal → String
  | some .vision => "tape[ptr]"
  | some .empty => "empty"
  | some (.num n) => toString n
  | none => "None"

/-- Right operand rendering of a conditional jump (generate_node lines
734-739): the zero marker becomes the literal 0, the current-cell marker
becomes the cursor-indexed cell, anything else is rendered with str. -/
def spRight : Option SpVal → String
  | some .empty => "0"
  | some .vision => "tape[ptr]"
  | some (.num n) => toString n
  | none => "None"

/-- Left operand rendering of add/sub (generate_node lines 751-756 and
773-778): the current-cell marker becomes the cursor-indexed cell, and
both the cell-reference branch and the final else branch render the tape
cell at the operand, so an integer-literal left operand is addressed as a
tape offset. -/
def aLeft (l : Option AVal) (isCell : Bool) : String :=
  match l with
  | some .vision => "tape[ptr]"
  | some (.num n) =>
    if isCell then "tape[" ++ toString n ++ "]" else "tape[" ++ toString n ++ "]"
  | none => if isCell then "tape[None]" else "tape[None]"

/-- Right operand rendering of add/sub (generate_node lines 758-763 and
780-785): the current-cell marker becomes the cursor-indexed cell, a
cell reference becomes the tape cell at its offset, and anything else is
rendered with str, so an integer-literal right operand is the literal
value itself. -/
def aRight (r : Option AVal) (isCell : Bool) : String :=
  match r with
  | some .vision => "tape[ptr]"
  | some (.num n) => if isCell then "tape[" ++ toString n ++ "]" else toString n
  | none => if isCell then "tape[None]" else "None"

/-- Store-target rendering of blackpanther (generate_node lines 797-802). -/
def bpTarget (ds : List (String × Option Nat)) : Option TokValue → String
  | none => "tape + ptr"
  | some (.s name) =>
    if name ∈ ds.map Prod.fst then "doctorstrange_" ++ name else "tape + " ++ name
  | some (.n k) => "tape + " ++ toString k

/-- Print-source rendering of captainamerica (generate_node lines
810-816). -/
def caSource (ds : List (String × Option Nat)) : Option String → String
  | none => "tape + ptr"
  | some name => if name ∈ ds.map Prod.fst then "doctorstrange_" ++ name else "tape + ptr"

/-- CodeGenerator.generate_node: the lines of target source appended for
one instruction. -/
def generateNode (level : Nat) (ds : List (String × Option Nat)) : Stmt → List String
  | .ironman => [ind level ++ "tape[ptr]++;"]
  | .batman => [ind level ++ "tape[ptr]--;"]
  | .superman => [ind level ++ "ptr++;"]
  | .wonderwoman => [ind level ++ "ptr--;"]
  | .hulk arg =>
    match arg with
    | some (.n v) => [ind level ++ "hulk(" ++ toString v ++ ", 0);"]
    | some (.s v) => [ind level ++ "hulk(-1, \x27" ++ v ++ "\x27);"]
    | none => [ind level ++ "hulk(-1, 0);"]
  | .thor => [ind level ++ "thor();"]
  | .thornum => [ind level ++ "thornum();"]
  | .starlord text => [ind level ++ "printf(\"" ++ text ++ "\\n\");"]
  | .deadpool => [ind level ++ "ptr = 0;"]
  | .loki =>
    [ind level ++ "tape[ptr] = 0;",
     ind level ++ "printf(\"Loki cleared cell %d\\n\", ptr);"]
  | .falcon name => [(ind level).dropRight 4 ++ optStr name ++ ":"]
  | .hawkeye target => [ind level ++ "goto " ++ optStr target ++ ";"]
  | .spiderman target left op right =>
    [ind level ++ "if (" ++ spLeft left ++ " " ++ optStr op ++ " " ++ spRight right ++ ") \x7b",
     ind level ++ "    goto " ++ optStr target ++ ";",
     ind level ++ "\x7d"]
  | .addS l r lic ric => [ind level ++ aLeft l lic ++ " += " ++ aRight r ric ++ ";"]
  | .subS l r lic ric => [ind level ++ aLeft l lic ++ " -= " ++ aRight r ric ++ ";"]
  | .doctorstrange _ _ => []
  | .blackpanther target content =>
    [ind level ++ "blackpanther(" ++ bpTarget ds target ++ ", " ++
      (match content with
       | some c => "\"" ++ c ++ "\""
       | none => "NULL") ++ ");"]
  | .captainamerica target => [ind level ++ "captainamerica(" ++ caSource ds target ++ ");"]
  | .flashCall name => [ind level ++ "// Flash loop: " ++ name]
  | .thanos =>
    [ind level ++ "printf(\"Thanos snapped his fingers...\\n\");",
     ind level ++ "return 0;"]

/-- The array-declaration section of CodeGenerator.generate (lines
577-580): one statically sized buffer per declared array, using the
declared size or the 1024 default when no size was given. -/
def arrayDecls (ds : List (String × Option Nat)) : List String :=
  ds.map (fun p =>
    "uint8_t doctorstrange_" ++ p.1 ++ "[" ++ toString (p.2.getD 1024) ++ "] = \x7b0\x7d;")

/-- The entry-point body of CodeGenerator.generate: each instruction is
lowered in order at indentation level 1. -/
def generateMain (ds : List (String × Option Nat)) (ast : List Stmt) : List String :=
  ast.foldr (fun node acc => generateNode 1 ds node ++ acc) []

/-- Strings with equal character data are equal. -/
theorem strEqOfData {a b : String} (h : a.data = b.data) : a = b := by
  cases a
  cases b
  exact congrArg String.mk h

/-- Membership in the label set is preserved by set.add. -/
theorem memAddLabel {st : FPState} {s : String} (x : String) (h : s ∈ st.labels) :
    s ∈ (st.addLabel x).labels := by
  unfold FPState.addLabel
  split
  · exact h
  · simp [h]

/-- The resolver scan never removes a label: labels present in the state
remain present after the first pass finishes, at any fuel. -/
theorem firstPassFLabelsMono (fuel : Nat) (l : List Token) (st : FPState) (s : String)
    (h : s ∈ st.labels) : s ∈ (firstPassF fuel l st).labels := by
  induction fuel, l, st using firstPassF.induct generalizing s with
  | case1 fuel st => simpa [firstPassF] using h
  | case2 st => simpa [firstPassF] using h
  | case3 fuel t rest st ht st2 ih =>
    rw [firstPassF.eq_def]
    simp only [ht, if_true, reduceIte]
    apply ih s
    unfold st2
    repeat' split
    all_goals first
      | exact memAddLabel _ h
      | exact h
  | case4 fuel t st hnf ht t2 tail ht2 ih =>
    rw [firstPassF.eq_def]
    simp only [if_neg hnf, ht]
    simp only [if_true, reduceIte, if_pos ht2]
    exact ih s h
  | case5 fuel t st hnf ht t2 tail ht2 ih =>
    rw [firstPassF.eq_def]
    simp only [if_neg hnf, ht]
    simp only [if_true, reduceIte, if_neg ht2]
    exact ih s h
  | case6 fuel t st hnf ht =>
    rw [firstPassF.eq_def]
    simp only [if_neg hnf, ht]
    simp only [if_true, reduceIte]
    exact h
  | case7 fuel t rest st hnf hnfl ht st2 ih =>
    rw [firstPassF.eq_def]
    simp only [if_neg hnf, if_neg hnfl, ht]
    simp only [if_true, reduceIte]
    apply ih s
    unfold st2
    repeat' split
    all_goals first
      | exact memAddLabel _ h
      | exact h
  | case8 fuel t rest st hnf hnfl hnd ih =>
    rw [firstPassF.eq_def]
    simp only [if_neg hnf, if_neg hnfl, if_neg hnd]
    exact ih s h

/-- Adding a label puts it in the set. -/
theorem memAddLabelSelf (st : FPState) (s : String) : s ∈ (st.addLabel s).labels := by
  unfold FPState.addLabel
  split
  · assumption
  · simp

/-- A matched prefix of a list all of whose characters satisfy p consists
of characters satisfying p. -/
theorem startsWithAll {p : Char → Bool} : ∀ (l pat : List Char), startsWithL l pat = true →
    l.all p = true → pat.all p = true
  | _, [], _, _ => rfl
  | [], q :: qs, h, _ => by simp [startsWithL] at h
  | c :: s, q :: qs, h, ha => by
    simp only [startsWithL, Bool.and_eq_true, decide_eq_true_eq] at h
    simp only [List.all_cons, Bool.and_eq_true] at ha ⊢
    exact ⟨h.1 ▸ ha.1, startsWithAll s qs h.2 ha.2⟩

/-- A pattern contained in a list all of whose characters satisfy p
consists of characters satisfying p. -/
theorem containsAll {p : Char → Bool} : ∀ (l pat : List Char), containsL l pat = true →
    l.all p = true → pat.all p = true
  | [], pat, h, _ => by
    unfold containsL at h
    cases pat with
    | nil => rfl
    | cons q qs => simp [startsWithL] at h
  | c :: s, pat, h, ha => by
    unfold containsL at h
    simp only [Bool.or_eq_true] at h
    rcases h with h | h
    · exact startsWithAll _ _ h ha
    · simp only [List.all_cons, Bool.and_eq_true] at ha
      exact containsAll s pat h ha.2

/-- A blank line cannot contain the block-comment closing marker. -/
theorem blankNotContainsClose (line : List Char) (hb : line.all isspace = true) :
    containsL line closeMark = false := by
  by_contra hc
  simp only [Bool.not_eq_false] at hc
  exact absurd (containsAll line closeMark hc hb) (by decide)

/-- The string scan fails when no closing quote remains on the line. -/
theorem scanStrNone : ∀ (s : List Char), ¬('"' ∈ s) → scanStr s = none
  | [], _ => rfl
  | c :: rest, h => by
    have hcq : ¬(c = '"') := fun hc => h (hc ▸ List.mem_cons_self c rest)
    have hrest : ¬('"' ∈ rest) := fun hm => h (List.mem_cons_of_mem c hm)
    unfold scanStr
    rw [if_neg hcq]
    by_cases hbs : c = '\\'
    · rw [if_pos hbs]
      match rest, hrest with
      | [], _ => rfl
      | d :: rest2, hrest =>
        have h2 : ¬('"' ∈ rest2) := fun hm => hrest (List.mem_cons_of_mem d hm)
        simp [scanStrNone rest2 h2]
    · rw [if_neg hbs]
      rw [scanStrNone rest hrest]
termination_by s => s.length

/-- The string scan succeeds on a line holding the closing quote, and the
token value is exactly the raw characters before it (no decoding), when
those characters contain neither a quote nor a backslash. -/
theorem scanStrClosed : ∀ (s : List Char), ¬('"' ∈ s) → ¬('\\' ∈ s) →
    ∀ rest, scanStr (s ++ '"' :: rest) = some (s, rest)
  | [], _, _, rest => by rw [List.nil_append]; unfold scanStr; rw [if_pos rfl]
  | c :: s2, hq, hb, rest => by
    have hcq : ¬(c = '"') := fun hc => hq (hc ▸ List.mem_cons_self c s2)
    have hcb : ¬(c = '\\') := fun hc => hb (hc ▸ List.mem_cons_self c s2)
    have hq2 : ¬('"' ∈ s2) := fun hm => hq (List.mem_cons_of_mem c hm)
    have hb2 : ¬('\\' ∈ s2) := fun hm => hb (List.mem_cons_of_mem c hm)
    rw [List.cons_append]
    unfold scanStr
    rw [if_neg hcq, if_neg hcb, scanStrClosed s2 hq2 hb2 rest]

/-- The tokens of the claim C1 counterexample: a label definition for a,
immediately followed by a label definition for b. -/
def c1Toks : List Token :=
  [⟨Tok.falcon, TokValue.s "falcon", 1, 0⟩, ⟨Tok.identifier, TokValue.s "a", 1, 0⟩,
   ⟨Tok.falcon, TokValue.s "falcon", 1, 0⟩, ⟨Tok.identifier, TokValue.s "b", 1, 0⟩]

/-- C1 is false as stated: in the token sequence falcon a falcon b, the
position after a holds a label-definition keyword followed by the
identifier b, yet b is never registered, because the falcon branch of
first_pass does i += 2 and then also falls through to the loop's i += 1,
advancing three tokens and skipping the second falcon. -/
theorem c1_counterexample :
    (c1Toks.get? 2).map Token.type = some Tok.falcon ∧
    (c1Toks.get? 3).map Token.type = some Tok.identifier ∧
    (c1Toks.get? 3).map (fun t => t.value.getS) = some "b" ∧
    ¬("b" ∈ (firstPass c1Toks ⟨[], [], []⟩).labels) := by decide

/-- The resolver scan on an empty token list returns the state unchanged
at any fuel. -/
theorem firstPassFNil (fuel : Nat) (st : FPState) : firstPassF fuel [] st = st := by
  cases fuel <;> rfl

/-- Any fuel of at least the token count gives the resolver scan its
loop semantics: the fuel argument is irrelevant beyond that bound. -/
theorem firstPassFIrrel (fuel : Nat) (l : List Token) (st : FPState) :
    ∀ f2, l.length ≤ fuel → l.length ≤ f2 → firstPassF fuel l st = firstPassF f2 l st := by
  induction fuel, l, st using firstPassF.induct with
  | case1 fuel st =>
    intro f2 h1 h2
    rw [firstPassFNil, firstPassFNil]
  | case2 t tail st =>
    intro f2 h1 h2
    simp at h1
  | case3 fuel t rest st ht st2 ih =>
    intro f2 h1 h2
    cases f2 with
    | zero => simp at h2
    | succ fb =>
      rw [firstPassF.eq_def]
      conv_rhs => rw [firstPassF.eq_def]
      simp only [ht, if_true, reduceIte]
      apply ih
      · simp only [List.length_cons] at h1
        simp only [List.length_drop]
        omega
      · simp only [List.length_cons] at h2
        simp only [List.length_drop]
        omega
  | case4 fuel t st hnf ht t2 tail ht2 ih =>
    intro f2 h1 h2
    cases f2 with
    | zero => simp at h2
    | succ fb =>
      rw [firstPassF.eq_def]
      conv_rhs => rw [firstPassF.eq_def]
      simp only [if_neg hnf, ht, if_true, reduceIte, if_pos ht2]
      apply ih
      · refine Nat.le_trans (dropWhileLenLe _ _) ?_
        simp only [List.length_cons] at h1
        omega
      · refine Nat.le_trans (dropWhileLenLe _ _) ?_
        simp only [List.length_cons] at h2
        omega
  | case5 fuel t st hnf ht t2 tail ht2 ih =>
    intro f2 h1 h2
    cases f2 with
    | zero => simp at h2
    | succ fb =>
      rw [firstPassF.eq_def]
      conv_rhs => rw [firstPassF.eq_def]
      simp only [if_neg hnf, ht, if_true, reduceIte, if_neg ht2]
      apply ih
      · simp only [List.length_cons] at h1 ⊢
        omega
      · simp only [List.length_cons] at h2 ⊢
        omega
  | case6 fuel t st hnf ht =>
    intro f2 h1 h2
    cases f2 with
    | zero => simp at h2
    | succ fb =>
      rw [firstPassF.eq_def]
      conv_rhs => rw [firstPassF.eq_def]
      simp only [if_neg hnf, ht, if_true, reduceIte]
      simp
  | case7 fuel t rest st hnf hnfl ht st2 ih =>
    intro f2 h1 h2
    cases f2 with
    | zero => simp at h2
    | succ fb =>
      rw [firstPassF.eq_def]
      conv_rhs => rw [firstPassF.eq_def]
      simp only [if_neg hnf, if_neg hnfl, ht, if_true, reduceIte]
      apply ih
      · simp only [List.length_cons] at h1
        omega
      · simp only [List.length_cons] at h2
        omega
  | case8 fuel t rest st hnf hnfl hnd ih =>
    intro f2 h1 h2
    cases f2 with
    | zero => simp at h2
    | succ fb =>
      rw [firstPassF.eq_def]
      conv_rhs => rw [firstPassF.eq_def]
      simp only [if_neg hnf, if_neg hnfl, if_neg hnd]
      apply ih
      · simp only [List.length_cons] at h1
        omega
      · simp only [List.length_cons] at h2
        omega

/-- The state update performed at a falcon token by first_pass lines
242-246: when the next token is an identifier, its colon-stripped name is
added to the label set. -/
def falconStep (rest : List Token) (st : FPState) : FPState :=
  match rest with
  | t2 :: _ => if t2.type = Tok.identifier then st.addLabel (stripColon t2.value.getS) else st
  | [] => st

/-- C1 (amended): at a label-definition keyword, first_pass registers the
following identifier (colon stripped) when there is one, and the scan
resumes exactly three tokens past the keyword (i += 2 inside the branch
plus the final i += 1 of the loop body), even if the construct is
malformed; so a label definition whose keyword sits within the two
skipped positions is not processed. -/
theorem c1_falcon_advances_three (t : Token) (rest : List Token) (st : FPState)
    (h : t.type = Tok.falcon) :
    firstPass (t :: rest) st = firstPass (rest.drop 2) (falconStep rest st) ∧
    (∀ t2 rest2, rest = t2 :: rest2 → t2.type = Tok.identifier →
      stripColon t2.value.getS ∈ (firstPass (t :: rest) st).labels) := by
  have hstep : firstPass (t :: rest) st = firstPass (rest.drop 2) (falconStep rest st) := by
    unfold firstPass
    rw [firstPassF.eq_def]
    simp only [List.length_cons, h, if_true, reduceIte]
    have hirr := firstPassFIrrel rest.length (rest.drop 2) (falconStep rest st)
      (rest.drop 2).length (by simp only [List.length_drop]; omega) (by omega)
    rw [← hirr]
    rfl
  refine ⟨hstep, ?_⟩
  intro t2 rest2 hr ht2
  rw [hstep]
  unfold firstPass
  apply firstPassFLabelsMono
  subst hr
  simp only [falconStep, if_pos ht2]
  exact memAddLabelSelf st (stripColon t2.value.getS)

/-- Witness for C1 (amended) at the concrete sequence falcon a: the name
a is registered. -/
theorem c1_falcon_advances_three_witness :
    stripColon "a" ∈
      (firstPass [⟨Tok.falcon, TokValue.s "falcon", 1, 0⟩, ⟨Tok.identifier, TokValue.s "a", 1, 0⟩]
        ⟨[], [], []⟩).labels :=
  (c1_falcon_advances_three ⟨Tok.falcon, TokValue.s "falcon", 1, 0⟩
      [⟨Tok.identifier, TokValue.s "a", 1, 0⟩] ⟨[], [], []⟩ rfl).2
    ⟨Tok.identifier, TokValue.s "a", 1, 0⟩ [] rfl rfl

/-- C2 is false as stated: a conditional-jump instruction with an absent
relational operator is not refused; generate_node still lowers it to a
conditional statement, rendering the absent operator as the text None. -/
theorem c2_counterexample :
    generateNode 1 [] (Stmt.spiderman (some "L") (some SpVal.vision) none (some (SpVal.num 0))) =
      ["    if (tape[ptr] None 0) \x7b", "        goto L;", "    \x7d"] ∧
    generateNode 1 [] (Stmt.spiderman (some "L") (some SpVal.vision) none (some (SpVal.num 0))) ≠
      [] := by decide

/-- C2 (amended): code generation performs no validity check on
conditional jumps; every conditional-jump instruction, including one
with an absent relational operator or an absent left or right operand,
still emits the three lines of a conditional goto with each field
rendered by the str formatting, and an absent operator or operand
renders as the text None. -/
theorem c2_spiderman_no_refusal (ds : List (String × Option Nat)) (target : Option String)
    (l r : Option SpVal) (op : Option String) :
    generateNode 1 ds (Stmt.spiderman target l op r) =
      ["    if (" ++ spLeft l ++ " " ++ optStr op ++ " " ++ spRight r ++ ") \x7b",
       "    " ++ "    goto " ++ optStr target ++ ";",
       "    \x7d"] ∧
    spLeft none = "None" ∧ optStr none = "None" ∧ spRight none = "None" :=
  ⟨rfl, rfl, rfl, rfl⟩

/-- C3 is false as stated: lexing the two-character input made of the
less-than and greater-than signs does not fail; the operator scanner
consumes a second character only when it is an equals sign, so this input
lexes as two valid single-character operator tokens. -/
theorem c3_counterexample :
    tokenize "<>".data =
      Except.ok [⟨Tok.operator, TokValue.s "<", 1, 0⟩, ⟨Tok.operator, TokValue.s ">", 1, 0⟩] := by
  decide

/-- C3 (amended): the five recognized spellings each lex as a single
relational-operator token, with the bare equals sign normalized to the
same internal form as the double equals; the less-than greater-than pair
lexes as two valid operator tokens rather than failing; the only
single-character spelling that fails with an invalid-operator error is
the bare exclamation mark. -/
theorem c3_operator_lexing :
    tokenize ">=".data = Except.ok [⟨Tok.operator, TokValue.s ">=", 1, 0⟩] ∧
    tokenize "<=".data = Except.ok [⟨Tok.operator, TokValue.s "<=", 1, 0⟩] ∧
    tokenize "==".data = Except.ok [⟨Tok.operator, TokValue.s "==", 1, 0⟩] ∧
    tokenize "!=".data = Except.ok [⟨Tok.operator, TokValue.s "!=", 1, 0⟩] ∧
    tokenize "=".data = Except.ok [⟨Tok.operator, TokValue.s "==", 1, 0⟩] ∧
    tokenize "<>".data =
      Except.ok [⟨Tok.operator, TokValue.s "<", 1, 0⟩, ⟨Tok.operator, TokValue.s ">", 1, 0⟩] ∧
    tokenize "!".data = Except.error (LexErr.invalidOperator "!" 1) := by
  decide

/-- C4 is false as stated: for a read-input instruction with the
two-character string operand ab, the generated call embeds the whole
string inside a character constant rather than only its first
character. -/
theorem c4_counterexample :
    generateNode 1 [] (Stmt.hulk (some (TokValue.s "ab"))) = ["    hulk(-1, \x27ab\x27);"] ∧
    generateNode 1 [] (Stmt.hulk (some (TokValue.s "ab"))) ≠ ["    hulk(-1, \x27a\x27);"] := by
  decide

/-- C4 (amended): a read-input instruction with a string operand lowers
to a call embedding the entire string in a character constant (so only
one-character strings store that character; longer strings form a
multi-character constant); an integer operand lowers to a call storing
that integer; no operand lowers to the interactive-read call.  The
parser stores a single trailing string or number token as the
operand. -/
theorem c4_hulk_lowering (s : String) (v : Nat) :
    generateNode 1 [] (Stmt.hulk (some (TokValue.s s))) = ["    hulk(-1, \x27" ++ s ++ "\x27);"] ∧
    generateNode 1 [] (Stmt.hulk (some (TokValue.n v))) =
      ["    hulk(" ++ toString v ++ ", 0);"] ∧
    generateNode 1 [] (Stmt.hulk none) = ["    hulk(-1, 0);"] ∧
    (∀ line i line2 i2 rest,
      parseStatement [] ⟨Tok.hulk, TokValue.s "hulk", line, i⟩
          (⟨Tok.string, TokValue.s s, line2, i2⟩ :: rest) =
        .ok (some (Stmt.hulk (some (TokValue.s s))), 1)) := by
  exact ⟨rfl, rfl, rfl, fun line i line2 i2 rest => rfl⟩

/-- C5: every entry of the array table produces a generated buffer
declaration sized exactly to its declared size, or to the 1024 default
when no size was declared; and the resolver registers an array
declaration made of the keyword, an integer size and a name into the
table with exactly that size. -/
theorem c5_array_capacity (ds : List (String × Option Nat)) (name : String) (sz : Option Nat)
    (h : (name, sz) ∈ ds) :
    ("uint8_t doctorstrange_" ++ name ++ "[" ++ toString (sz.getD 1024) ++ "] = \x7b0\x7d;") ∈
      arrayDecls ds ∧
    (∀ (fuel : Nat) (t t2 t3 : Token) (rest : List Token) (st : FPState),
      t.type = Tok.doctorstrange → t2.type = Tok.number → t3.type = Tok.identifier →
      firstPassF (fuel + 1) (t :: t2 :: t3 :: rest) st =
        firstPassF fuel (t2 :: t3 :: rest)
          { st with doctorstranges := upsert t3.value.getS (some t2.value.getN) st.doctorstranges }) := by
  constructor
  · exact List.mem_map.mpr ⟨(name, sz), h, rfl⟩
  · intro fuel t t2 t3 rest st ht ht2 ht3
    rw [firstPassF.eq_def]
    simp [ht, ht2, ht3]

/-- Witness for C5 at a table holding one sized and one unsized array,
and at the concrete declaration of arr with size 5. -/
theorem c5_array_capacity_witness :
    ("uint8_t doctorstrange_arr[5] = \x7b0\x7d;") ∈
      arrayDecls [("arr", some 5), ("buf", none)] ∧
    firstPassF 3
        [⟨Tok.doctorstrange, TokValue.s "doctorstrange", 1, 0⟩, ⟨Tok.number, TokValue.n 5, 1, 0⟩,
         ⟨Tok.identifier, TokValue.s "arr", 1, 0⟩] ⟨[], [], []⟩ =
      firstPassF 2 [⟨Tok.number, TokValue.n 5, 1, 0⟩, ⟨Tok.identifier, TokValue.s "arr", 1, 0⟩]
        ⟨[], [], [("arr", some 5)]⟩ :=
  ⟨(c5_array_capacity [("arr", some 5), ("buf", none)] "arr" (some 5) (by decide)).1,
   (c5_array_capacity [("arr", some 5)] "arr" (some 5) (by decide)).2 2
     ⟨Tok.doctorstrange, TokValue.s "doctorstrange", 1, 0⟩ ⟨Tok.number, TokValue.n 5, 1, 0⟩
     ⟨Tok.identifier, TokValue.s "arr", 1, 0⟩ [] ⟨[], [], []⟩ rfl rfl rfl⟩

/-- C7: a conditional jump whose right operand is the integer literal 0
generates exactly the same code as one whose right operand is the empty
marker, for any target, left operand and operator; and for every target
and every relational operator, with left the current-cell marker and
right the literal 0 the lowering is the conditional comparing the
cursor-indexed cell against the literal 0. -/
theorem c7_spiderman_zero_empty (ds : List (String × Option Nat)) (target : Option String)
    (l : Option SpVal) (op : Option String) (tgt o : String) :
    generateNode 1 ds (Stmt.spiderman target l op (some (SpVal.num 0))) =
      generateNode 1 ds (Stmt.spiderman target l op (some SpVal.empty)) ∧
    generateNode 1 ds
        (Stmt.spiderman (some tgt) (some SpVal.vision) (some o) (some (SpVal.num 0))) =
      ["    if (tape[ptr] " ++ o ++ " " ++ "0" ++ ") \x7b",
       "        goto " ++ tgt ++ ";",
       "    \x7d"] :=
  ⟨rfl, rfl⟩

/-- C10: in add/subtract lowering an integer-literal left operand is
addressed as a tape offset, generating exactly what a cell-reference
left operand generates, while an integer-literal right operand is
emitted as the literal value itself: the two positions interpret a plain
integer asymmetrically. -/
theorem c10_add_sub_asymmetry (ds : List (String × Option Nat)) (n m : Nat) (r : Option AVal)
    (ric : Bool) :
    generateNode 1 ds (Stmt.addS (some (AVal.num n)) r false ric) =
      generateNode 1 ds (Stmt.addS (some (AVal.num n)) r true ric) ∧
    generateNode 1 ds (Stmt.subS (some (AVal.num n)) r false ric) =
      generateNode 1 ds (Stmt.subS (some (AVal.num n)) r true ric) ∧
    generateNode 1 ds (Stmt.addS (some (AVal.num n)) (some (AVal.num m)) false false) =
      ["    " ++ ("tape[" ++ toString n ++ "]") ++ " += " ++ toString m ++ ";"] ∧
    generateNode 1 ds (Stmt.subS (some (AVal.num n)) (some (AVal.num m)) false false) =
      ["    " ++ ("tape[" ++ toString n ++ "]") ++ " -= " ++ toString m ++ ";"] := by
  exact ⟨rfl, rfl, rfl, rfl⟩

/-- The token sequence of a program declaring a label and jumping to it:
falcon name ( : ) then hawkeye name, as the lexer produces it from the
two-line source. -/
def c6Toks (name : String) : List Token :=
  [⟨Tok.falcon, TokValue.s "falcon", 1, 0⟩, ⟨Tok.identifier, TokValue.s name, 1, 0⟩,
   ⟨Tok.identifier, TokValue.s ":", 1, 0⟩, ⟨Tok.hawkeye, TokValue.s "hawkeye", 2, 0⟩,
   ⟨Tok.identifier, TokValue.s name, 2, 0⟩]

/-- C6: declaring a label and later jumping to it parses into one
label-definition instruction and one jump instruction carrying the same
name (the trailing colon lexes as a separate token and produces no
instruction), and generation emits exactly one label statement and one
goto statement sharing that identical identifier. -/
theorem c6_label_jump_roundtrip (name : String) (h : ¬(name.data.getLast? = some ':')) :
    parse (c6Toks name) =
      .ok ([Stmt.falcon (some name), Stmt.hawkeye (some name)], ⟨[name], [], []⟩) ∧
    generateMain [] [Stmt.falcon (some name), Stmt.hawkeye (some name)] =
      [name ++ ":", "    goto " ++ name ++ ";"] := by
  constructor
  · simp [parse, c6Toks, firstPass, firstPassF, parseLoop, parseLoopF, parseStatement,
      stripColon, h, FPState.addLabel, TokValue.getS]
  · rfl

/-- Witness for C6 at the name loop, starting from the raw two-line
source text. -/
theorem c6_label_jump_roundtrip_witness :
    tokenize "falcon loop:\nhawkeye loop".data = Except.ok (c6Toks "loop") ∧
    parse (c6Toks "loop") =
      .ok ([Stmt.falcon (some "loop"), Stmt.hawkeye (some "loop")], ⟨["loop"], [], []⟩) ∧
    generateMain [] [Stmt.falcon (some "loop"), Stmt.hawkeye (some "loop")] =
      ["loop:", "    goto loop;"] :=
  ⟨by decide, (c6_label_jump_roundtrip "loop" (by decide)).1,
   (c6_label_jump_roundtrip "loop" (by decide)).2⟩

/-- A blank line cannot contain the block-comment opening marker. -/
theorem blankNotContainsOpen (line : List Char) (hb : line.all isspace = true) :
    containsL line openMark = false := by
  by_contra hc
  simp only [Bool.not_eq_false] at hc
  exact absurd (containsAll line openMark hc hb) (by decide)

/-- The line loop of tokenize unfolded one line at a time. -/
theorem tokenizeLinesCons (m : Bool) (n : Nat) (line : List Char) (rest : List (List Char)) :
    tokenizeLines m n (line :: rest) =
      if line.all isspace then tokenizeLines m (n + 1) rest
      else if m then
        (if containsL line closeMark then tokenizeLines false (n + 1) rest
         else tokenizeLines true (n + 1) rest)
      else if containsL line openMark && !containsL line closeMark then
        tokenizeLines true (n + 1) rest
      else if startsWithL (line.dropWhile isspace) "hero>".data then
        tokenizeLines m (n + 1) rest
      else
        (match scanLine n line with
         | .error e => .error e
         | .ok lts =>
           (match tokenizeLines m (n + 1) rest with
            | .error e => .error e
            | .ok ts => .ok (setHeadIndent (lineIndent line) lts ++ ts))) := rfl

/-- C8: while inside a block comment every line, the closing line
included, produces zero tokens, and the comment state ends exactly when
the line contains the closing marker (text after the marker on that line
is skipped with the rest of the line); outside a comment, a line
containing the opening marker without the closing marker produces zero
tokens and starts the comment region. -/
theorem c8_block_comment :
    (∀ (n : Nat) (line : List Char) (rest : List (List Char)),
      tokenizeLines true n (line :: rest) =
        tokenizeLines (!containsL line closeMark) (n + 1) rest) ∧
    (∀ (n : Nat) (line : List Char) (rest : List (List Char)),
      containsL line openMark = true → containsL line closeMark = false →
      tokenizeLines false n (line :: rest) = tokenizeLines true (n + 1) rest) := by
  constructor
  · intro n line rest
    rw [tokenizeLinesCons]
    by_cases hb : line.all isspace = true
    · rw [if_pos hb, blankNotContainsClose line hb]
      rfl
    · rw [if_neg hb]
      by_cases hc : containsL line closeMark = true
      · rw [hc]
        simp only [if_true, reduceIte, Bool.not_true]
      · have hc2 : containsL line closeMark = false := by simpa using hc
        rw [hc2]
        simp
  · intro n line rest ho hc
    rw [tokenizeLinesCons]
    have hnb : ¬(line.all isspace = true) := by
      intro hb
      rw [blankNotContainsOpen line hb] at ho
      exact Bool.false_ne_true ho
    rw [if_neg hnb, ho, hc]
    simp

/-- Witness for C8: a closing line with trailing text after the marker is
fully skipped and ends the comment, and an opening line starts it. -/
theorem c8_block_comment_witness :
    tokenizeLines true 3 ["code *heroes tail ironman".data, "ironman".data] =
      tokenizeLines false 4 ["ironman".data] ∧
    tokenizeLines false 1 ["heroes* open".data, "batman".data] =
      tokenizeLines true 2 ["batman".data] :=
  ⟨c8_block_comment.1 3 "code *heroes tail ironman".data ["ironman".data],
   c8_block_comment.2 1 "heroes* open".data ["batman".data] (by decide) (by decide)⟩

/-- The line scanner on an exhausted line returns no further tokens at
any fuel. -/
theorem scanLineFNil (n fuel : Nat) : scanLineF n fuel [] = .ok [] := by
  cases fuel <;> rfl

/-- One step of the line scanner at an opening quote: the string scan of
the remaining characters decides between a string token and the fatal
unterminated-string error. -/
theorem scanLineFStr (n fuel : Nat) (s : List Char) :
    scanLineF n (fuel + 1) ('"' :: s) =
      (match scanStr s with
       | some (v, r) =>
         (match scanLineF n fuel r with
          | .ok ts => .ok (⟨Tok.string, TokValue.s (String.mk v), n, 0⟩ :: ts)
          | .error e => .error e)
       | none => .error (.unclosedString n)) := rfl

/-- C9: a string literal opened by a double quote with no closing quote
before the end of the line is the fatal unterminated-string error naming
that line (1-based, as the two-line example shows); with the closing
quote present the produced token carries the raw text between the
quotes, escape sequences left undecoded (the backslash stays in the
value, as the last part shows). -/
theorem c9_string_lexing :
    (∀ (n : Nat) (s : List Char), ¬('"' ∈ s) →
      scanLine n ('"' :: s) = .error (.unclosedString n)) ∧
    (∀ (n : Nat) (s : List Char), ¬('"' ∈ s) → ¬('\\' ∈ s) →
      scanLine n ('"' :: (s ++ ['"'])) = .ok [⟨Tok.string, TokValue.s (String.mk s), n, 0⟩]) ∧
    tokenize "ironman\n\"abc".data = .error (.unclosedString 2) ∧
    scanLine 1 ('"' :: 'a' :: '\\' :: 'n' :: 'b' :: '"' :: []) =
      .ok [⟨Tok.string, TokValue.s "a\\nb", 1, 0⟩] := by
  refine ⟨?_, ?_, by decide, by decide⟩
  · intro n s hq
    show scanLineF n (s.length + 1) ('"' :: s) = _
    rw [scanLineFStr, scanStrNone s hq]
  · intro n s hq hb
    show scanLineF n ((s ++ ['"']).length + 1) ('"' :: (s ++ ['"'])) = _
    rw [scanLineFStr, scanStrClosed s hq hb []]
    simp [scanLineFNil]

/-- Witness for C9: the unterminated line abc opened by a quote errors,
and a closed two-character literal produces its raw text. -/
theorem c9_string_lexing_witness :
    scanLine 3 ('"' :: "abc".data) = .error (.unclosedString 3) ∧
    scanLine 1 ('"' :: ("ab".data ++ ['"'])) = .ok [⟨Tok.string, TokValue.s "ab", 1, 0⟩] :=
  ⟨c9_string_lexing.1 3 "abc".data (by decide),
   c9_string_lexing.2.1 1 "ab".data (by decide) (by decide)⟩
